import Mathlib

/-!
Shallow embedding of the stat-store core of `db_helper.py`.

The store keeps, per category partition (`general_stats`, `sheep_stats`,
`ctw_stats`, `ww_stats`), rows keyed by `(username, stat_name)` with a
`lifetime` column and five baseline-snapshot columns
(`session`, `daily`, `yesterday`, `weekly`, `monthly`), each of which may
be NULL (modelled as `Option Int`; stat values are numeric counters).
SQL tables are modelled as row lists in rowid order; the PRIMARY KEY
constraint on `(username, stat_name)` is the well-formedness predicate
`DBWF` below.  SQL string comparison (`=`) is case-sensitive; `LOWER` is
modelled by `strLower` (characterwise ASCII lowercasing).
-/

/-- The set `GENERAL_STATS` from `db_helper.py`. -/
def GENERAL_STATS : List String :=
  ["available_layers", "experience", "coins", "playtime", "level"]

/-- The set `SHEEP_STATS` from `db_helper.py`. -/
def SHEEP_STATS : List String :=
  ["sheep_thrown", "wins", "games_played", "deaths", "damage_dealt",
   "kills", "losses", "deaths_explosive", "magic_wool_hit", "kills_void",
   "deaths_void", "deaths_bow", "kills_explosive", "kills_bow",
   "kills_melee", "deaths_melee"]

/-- The set `CTW_STATS` from `db_helper.py`. -/
def CTW_STATS : List String :=
  ["ctw_deaths", "ctw_kills", "ctw_assists", "ctw_gold_spent", "ctw_kills_on_woolholder",
   "ctw_experienced_wins", "ctw_experienced_losses", "ctw_fastest_win", "ctw_wools_stolen",
   "ctw_longest_game", "ctw_participated_wins", "ctw_most_kills_and_assists", "ctw_gold_earned",
   "ctw_participated_losses", "ctw_most_gold_earned", "ctw_deaths_to_woolholder",
   "ctw_kills_with_wool", "ctw_deaths_with_wool", "ctw_fastest_wool_capture", "ctw_wools_captured"]

/-- The set `WW_STATS` from `db_helper.py`. -/
def WW_STATS : List String :=
  ["ww_assists", "ww_blocks_broken", "ww_deaths", "ww_games_played",
   "ww_kills", "ww_powerups_gotten", "ww_wool_placed", "ww_wins",
   "ww_engineer_blocks_broken", "ww_engineer_deaths", "ww_engineer_wool_placed",
   "ww_engineer_powerups_gotten", "ww_engineer_kills", "ww_engineer_assists",
   "ww_tank_assists", "ww_tank_blocks_broken", "ww_tank_deaths",
   "ww_tank_kills", "ww_tank_powerups_gotten", "ww_tank_wool_placed",
   "ww_assault_blocks_broken", "ww_assault_deaths", "ww_assault_powerups_gotten",
   "ww_assault_wool_placed", "ww_assault_assists", "ww_assault_kills",
   "ww_golem_assists", "ww_golem_blocks_broken", "ww_golem_deaths",
   "ww_golem_kills", "ww_golem_powerups_gotten", "ww_golem_wool_placed",
   "ww_archer_deaths", "ww_archer_powerups_gotten", "ww_archer_assists",
   "ww_archer_kills", "ww_archer_wool_placed", "ww_archer_blocks_broken",
   "ww_swordsman_deaths", "ww_swordsman_powerups_gotten", "ww_swordsman_kills",
   "ww_swordsman_assists", "ww_swordsman_blocks_broken", "ww_swordsman_wool_placed"]

/-- Python's `s.startswith(p)`: the characters of `p` are an initial segment
of the characters of `s` (modelled on the character lists). -/
def strStartsWith (s p : String) : Bool := List.isPrefixOf p.data s.data

/-- SQL `LOWER`: lowercase each character (ASCII, as SQLite's LOWER). -/
def strLower (s : String) : String := ⟨s.data.map Char.toLower⟩

/-- The function `get_stat_table` from `db_helper.py`: which table a stat belongs to. -/
def get_stat_table (stat_name : String) : String :=
  if GENERAL_STATS.contains stat_name then "general_stats"
  else if SHEEP_STATS.contains stat_name then "sheep_stats"
  else if strStartsWith stat_name "ctw_" || CTW_STATS.contains stat_name then "ctw_stats"
  else if strStartsWith stat_name "ww_" || WW_STATS.contains stat_name then "ww_stats"
  else "sheep_stats"

/-- One row of a categorized stat table.  Columns other than the key may be
NULL in legacy data, hence `Option Int`. -/
structure StatRow where
  username : String
  stat_name : String
  lifetime : Option Int
  session : Option Int
  daily : Option Int
  yesterday : Option Int
  weekly : Option Int
  monthly : Option Int
deriving DecidableEq, Repr

/-- The four categorized stat tables of `stats.db`, each a list of rows in
rowid order. -/
structure DB where
  general_stats : List StatRow
  sheep_stats : List StatRow
  ctw_stats : List StatRow
  ww_stats : List StatRow
deriving DecidableEq, Repr

/-- The empty database (after `init_database` on a fresh file). -/
def emptyDB : DB := ⟨[], [], [], []⟩

/-- Read a table by its SQL name (the names `get_stat_table` produces). -/
def DB.getTable (db : DB) (t : String) : List StatRow :=
  if t = "general_stats" then db.general_stats
  else if t = "sheep_stats" then db.sheep_stats
  else if t = "ctw_stats" then db.ctw_stats
  else db.ww_stats

/-- Replace a table by its SQL name. -/
def DB.setTable (db : DB) (t : String) (rows : List StatRow) : DB :=
  if t = "general_stats" then { db with general_stats := rows }
  else if t = "sheep_stats" then { db with sheep_stats := rows }
  else if t = "ctw_stats" then { db with ctw_stats := rows }
  else { db with ww_stats := rows }

/-- All rows of the four tables, in the order the code's UNION subquery
enumerates the tables. -/
def DB.allRows (db : DB) : List StatRow :=
  db.general_stats ++ db.sheep_stats ++ db.ctw_stats ++ db.ww_stats

/-- Row matches the exact key `(u, s)` (SQL `username = ? AND stat_name = ?`). -/
def keyMatch (u s : String) (r : StatRow) : Bool :=
  r.username == u && r.stat_name == s

/-- The query `SELECT ... WHERE username = ? AND stat_name = ?` (first matching row). -/
def findRow (rows : List StatRow) (u s : String) : Option StatRow :=
  rows.find? (keyMatch u s)

/-- The statement `INSERT OR REPLACE` keyed by `(username, stat_name)`: replace the
conflicting row if one exists, otherwise append the new row. -/
def upsertRow (rows : List StatRow) (row : StatRow) : List StatRow :=
  if rows.any (keyMatch row.username row.stat_name) then
    rows.map (fun r => if keyMatch row.username row.stat_name r then row else r)
  else rows ++ [row]

/-- The key columns of a table, used to state the PRIMARY KEY constraint. -/
def keysOf (rows : List StatRow) : List (String × String) :=
  rows.map (fun r => (r.username, r.stat_name))

/-- PRIMARY KEY `(username, stat_name)` holds on a table. -/
def TableWF (rows : List StatRow) : Prop := (keysOf rows).Nodup

instance : DecidablePred TableWF := fun rows => by
  unfold TableWF; infer_instance

/-- PRIMARY KEY holds on all four tables. -/
def DBWF (db : DB) : Prop :=
  TableWF db.general_stats ∧ TableWF db.sheep_stats ∧
    TableWF db.ctw_stats ∧ TableWF db.ww_stats

instance : DecidablePred DBWF := fun db => by
  unfold DBWF; infer_instance

/-- The per-period values reported for one stat by the read operations. -/
structure StatView where
  lifetime : Int
  session : Int
  daily : Int
  yesterday : Int
  weekly : Int
  monthly : Int
deriving DecidableEq, Repr

/-- A Python dict built by the read loops (`stats[row[0]] = view(row)`),
one assignment per row in row order, later assignments overriding earlier
ones; modelled as the resulting lookup function. -/
def statDict (view : StatRow → StatView) (rows : List StatRow) : String → Option StatView :=
  rows.foldl (fun acc r => fun s => if s = r.stat_name then some (view r) else acc s)
    (fun _ => none)

/-- The rows of `SELECT ... FROM t WHERE username = ?` for each of the four
tables, concatenated in the order the read loops visit the tables. -/
def userRows (db : DB) (u : String) : List StatRow :=
  db.general_stats.filter (fun r => r.username == u) ++
  db.sheep_stats.filter (fun r => r.username == u) ++
  db.ctw_stats.filter (fun r => r.username == u) ++
  db.ww_stats.filter (fun r => r.username == u)

/-- How `get_user_stats` reports one row: every column read with `or 0`. -/
def rawView (r : StatRow) : StatView :=
  { lifetime := r.lifetime.getD 0
    session := r.session.getD 0
    daily := r.daily.getD 0
    yesterday := r.yesterday.getD 0
    weekly := r.weekly.getD 0
    monthly := r.monthly.getD 0 }

/-- How `get_user_stats_with_deltas` reports one row: lifetime as stored
(`or 0`), each period as `lifetime - snapshot` with NULL snapshots read as 0. -/
def deltaView (r : StatRow) : StatView :=
  let lifetime := r.lifetime.getD 0
  { lifetime := lifetime
    session := lifetime - r.session.getD 0
    daily := lifetime - r.daily.getD 0
    yesterday := lifetime - r.yesterday.getD 0
    weekly := lifetime - r.weekly.getD 0
    monthly := lifetime - r.monthly.getD 0 }

/-- The function `get_user_stats` from `db_helper.py`. -/
def get_user_stats (db : DB) (username : String) : String → Option StatView :=
  statDict rawView (userRows db username)

/-- The function `get_user_stats_with_deltas` from `db_helper.py`. -/
def get_user_stats_with_deltas (db : DB) (username : String) : String → Option StatView :=
  statDict deltaView (userRows db username)

/-- The case-insensitive canonical-casing lookup at the top of
`update_user_stats`: `SELECT DISTINCT username FROM (union of the four
tables) WHERE LOWER(username) = LOWER(?) LIMIT 1`.  SQL row order in the
subquery is unspecified; modelled as the first match scanning the tables
in declaration order. -/
def existing_user (db : DB) (username : String) : Option String :=
  (db.allRows.find? (fun r => strLower r.username == strLower username)).map
    (fun r => r.username)

/-- The row `update_user_stats` writes for one stat: keep present snapshots
of an existing record (NULL columns fall back to the new lifetime value),
initialize all snapshots of a new record to the new lifetime value (the
new-category branch and the default branch of the source are kept separate,
as in the code), then apply the explicitly requested snapshot overrides. -/
def resolveRow (username stat_name : String) (lifetime_value : Int)
    (snapshot_sections new_stat_categories : List String)
    (table : String) (existing : Option StatRow) : StatRow :=
  let is_new_category :=
    (table == "ctw_stats" && new_stat_categories.contains "ctw") ||
    (table == "ww_stats" && new_stat_categories.contains "ww")
  let snaps :=
    match existing with
    | some r =>
      (r.session.getD lifetime_value, r.daily.getD lifetime_value,
       r.yesterday.getD lifetime_value, r.weekly.getD lifetime_value,
       r.monthly.getD lifetime_value)
    | none =>
      if is_new_category then
        (lifetime_value, lifetime_value, lifetime_value, lifetime_value, lifetime_value)
      else
        (lifetime_value, lifetime_value, lifetime_value, lifetime_value, lifetime_value)
  let session_snap := if snapshot_sections.contains "session" then lifetime_value else snaps.1
  let daily_snap := if snapshot_sections.contains "daily" then lifetime_value else snaps.2.1
  let yesterday_snap := if snapshot_sections.contains "yesterday" then lifetime_value else snaps.2.2.1
  let weekly_snap := if snapshot_sections.contains "weekly" then lifetime_value else snaps.2.2.2.1
  let monthly_snap := if snapshot_sections.contains "monthly" then lifetime_value else snaps.2.2.2.2
  { username := username
    stat_name := stat_name
    lifetime := some lifetime_value
    session := some session_snap
    daily := some daily_snap
    yesterday := some yesterday_snap
    weekly := some weekly_snap
    monthly := some monthly_snap }

/-- The body of the per-stat loop of `update_user_stats`. -/
def update_stat (db : DB) (username : String)
    (snapshot_sections new_stat_categories : List String)
    (stat_name : String) (lifetime_value : Int) : DB :=
  let table := get_stat_table stat_name
  let rows := db.getTable table
  let existing := findRow rows username stat_name
  db.setTable table (upsertRow rows
    (resolveRow username stat_name lifetime_value snapshot_sections new_stat_categories
      table existing))

/-- The per-stat loop of `update_user_stats` from `db_helper.py`, acting on the canonical casing.
`stats` is the Python dict as an association list in iteration order (a dict
has pairwise-distinct keys). -/
def update_canon (db : DB) (canon : String) (stats : List (String × Int))
    (snapshot_sections new_stat_categories : List String) : DB :=
  stats.foldl
    (fun db p => update_stat db canon snapshot_sections new_stat_categories p.1 p.2) db

/-- The function `update_user_stats` from `db_helper.py`: resolve the username to the
stored casing if the user already exists (case-insensitively), then run the
per-stat loop. -/
def update_user_stats (db : DB) (username : String) (stats : List (String × Int))
    (snapshot_sections new_stat_categories : List String) : DB :=
  update_canon db ((existing_user db username).getD username) stats
    snapshot_sections new_stat_categories

/-- The statement `UPDATE t SET yesterday = daily WHERE username = ?` on one table. -/
def rotateRowsDaily (rows : List StatRow) (u : String) : List StatRow :=
  rows.map (fun r => if r.username == u then { r with yesterday := r.daily } else r)

/-- One loop iteration of `rotate_daily_to_yesterday`: rotate one user in
all four tables. -/
def rotateUserDaily (db : DB) (u : String) : DB :=
  { general_stats := rotateRowsDaily db.general_stats u
    sheep_stats := rotateRowsDaily db.sheep_stats u
    ctw_stats := rotateRowsDaily db.ctw_stats u
    ww_stats := rotateRowsDaily db.ww_stats u }

/-- The function `rotate_daily_to_yesterday` from `db_helper.py`.  The per-user `except`
branch is unreachable in the pure model, so the returned result dict maps
every given username to True. -/
def rotate_daily_to_yesterday (db : DB) (usernames : List String) :
    DB × (String → Option Bool) :=
  (usernames.foldl rotateUserDaily db,
   fun u => if usernames.contains u then some true else none)

/-- The statement `UPDATE t SET weekly = lifetime WHERE username = ?` on one table. -/
def resetRowsWeekly (rows : List StatRow) (u : String) : List StatRow :=
  rows.map (fun r => if r.username == u then { r with weekly := r.lifetime } else r)

/-- One loop iteration of `reset_weekly_snapshots`. -/
def resetUserWeekly (db : DB) (u : String) : DB :=
  { general_stats := resetRowsWeekly db.general_stats u
    sheep_stats := resetRowsWeekly db.sheep_stats u
    ctw_stats := resetRowsWeekly db.ctw_stats u
    ww_stats := resetRowsWeekly db.ww_stats u }

/-- The function `reset_weekly_snapshots` from `db_helper.py`.  As for the daily rotation,
the result dict maps every given username to True. -/
def reset_weekly_snapshots (db : DB) (usernames : List String) :
    DB × (String → Option Bool) :=
  (usernames.foldl resetUserWeekly db,
   fun u => if usernames.contains u then some true else none)

/-- The SQL names of the four partitions, in declaration order. -/
def tableNames : List String :=
  ["general_stats", "sheep_stats", "ctw_stats", "ww_stats"]

/-- The last row for `(username, stat_name)` among the rows the read loops
visit; the dict built by the read loops maps a stat name to the view of this
row (later assignments override earlier ones). -/
def lastStatRow (db : DB) (u s : String) : Option StatRow :=
  ((userRows db u).filter (fun r => r.stat_name == s)).getLast?

/-- The stored baseline column of a row selected by window name. -/
def baselineOf (r : StatRow) (w : String) : Option Int :=
  if w = "session" then r.session
  else if w = "daily" then r.daily
  else if w = "yesterday" then r.yesterday
  else if w = "weekly" then r.weekly
  else if w = "monthly" then r.monthly
  else none

/-- The five window names. -/
def windowNames : List String :=
  ["session", "daily", "yesterday", "weekly", "monthly"]

/-- The store invariant of the data model: at most one casing exists per
case-insensitive player identity across the whole store. -/
def CanonicalCased (db : DB) : Prop :=
  ∀ r ∈ db.allRows, ∀ r' ∈ db.allRows,
    strLower r.username = strLower r'.username → r.username = r'.username

instance : DecidablePred CanonicalCased := fun db => by
  unfold CanonicalCased; infer_instance

/-- A legacy, partially populated record: `session` is NULL and the stored
`daily` baseline exceeds the lifetime (upstream regression). -/
def rowNeo : StatRow :=
  { username := "Neo", stat_name := "kills", lifetime := some 3, session := none
    daily := some 10, yesterday := some 1, weekly := some 0, monthly := some 5 }

/-- A one-row store holding `rowNeo` in the sheep partition. -/
def dbNeo : DB := ⟨[], [rowNeo], [], []⟩

/-- First update of the case-sensitivity scenario: `update("Alice", {kills: 5})`. -/
def dbAlice1 : DB := update_user_stats emptyDB "Alice" [("kills", 5)] [] []

/-- Second update of the case-sensitivity scenario:
`update("alice", {kills: 3, coins: 7})`. -/
def dbAlice2 : DB := update_user_stats dbAlice1 "alice" [("kills", 3), ("coins", 7)] [] []

/-- A record of player Bob with daily baseline 10, for the rotation-order
scenario. -/
def rowBob : StatRow :=
  { username := "Bob", stat_name := "kills", lifetime := some 12, session := some 2
    daily := some 10, yesterday := some 4, weekly := some 6, monthly := some 8 }

/-- A one-row store holding `rowBob`. -/
def dbBob : DB := ⟨[], [rowBob], [], []⟩

/-- The store `dbBob` after the daily-to-yesterday rotation for Bob. -/
def dbBobRot : DB := (rotate_daily_to_yesterday dbBob ["Bob"]).1

/-- The store `dbBobRot` after an update that re-baselines only `daily` to the new
lifetime 15. -/
def dbBobUpd : DB := update_user_stats dbBobRot "Bob" [("kills", 15)] ["daily"] []

/-- A legacy record with several NULL baseline columns. -/
def rowOld : StatRow :=
  { username := "Old", stat_name := "kills", lifetime := some 5, session := none
    daily := none, yesterday := some 2, weekly := none, monthly := none }

/-- A one-row store holding `rowOld`. -/
def dbOld : DB := ⟨[], [rowOld], [], []⟩

/-! ### Table selection lemmas -/

theorem get_stat_table_mem (s : String) : get_stat_table s ∈ tableNames := by
  unfold get_stat_table tableNames
  split_ifs <;> simp

theorem getTable_setTable_self (db : DB) (t : String) (rows : List StatRow) :
    (db.setTable t rows).getTable t = rows := by
  unfold DB.getTable DB.setTable
  split_ifs <;> rfl

theorem getTable_setTable_other (db : DB) {t t' : String} (rows : List StatRow)
    (ht : t ∈ tableNames) (ht' : t' ∈ tableNames) (hne : t' ≠ t) :
    (db.setTable t rows).getTable t' = db.getTable t' := by
  simp only [tableNames, List.mem_cons, List.not_mem_nil, or_false] at ht ht'
  rcases ht with rfl | rfl | rfl | rfl <;> rcases ht' with rfl | rfl | rfl | rfl <;>
    simp_all [DB.getTable, DB.setTable]

theorem setTable_getTable_self (db : DB) (t : String) :
    db.setTable t (db.getTable t) = db := by
  unfold DB.getTable DB.setTable
  split_ifs <;> rfl

theorem mem_getTable_allRows {db : DB} {r : StatRow} {t : String}
    (h : r ∈ db.getTable t) : r ∈ db.allRows := by
  unfold DB.getTable at h
  unfold DB.allRows
  split_ifs at h <;> simp [h]

theorem mem_allRows_setTable {db : DB} {rows : List StatRow} {r : StatRow} {t : String}
    (h : r ∈ (db.setTable t rows).allRows) : r ∈ db.allRows ∨ r ∈ rows := by
  unfold DB.setTable at h
  unfold DB.allRows at h ⊢
  split_ifs at h <;> simp at h ⊢ <;> tauto

/-! ### Key-matching and upsert lemmas -/

theorem keyMatch_iff {u s : String} {r : StatRow} :
    keyMatch u s r = true ↔ r.username = u ∧ r.stat_name = s := by
  simp [keyMatch]

theorem keyMatch_self (row : StatRow) :
    keyMatch row.username row.stat_name row = true := by
  simp [keyMatch]

theorem mem_upsertRow {rows : List StatRow} {row r : StatRow}
    (h : r ∈ upsertRow rows row) : r ∈ rows ∨ r = row := by
  unfold upsertRow at h
  split_ifs at h with hc
  · obtain ⟨a, ha, hae⟩ := List.mem_map.mp h
    by_cases hk : keyMatch row.username row.stat_name a = true
    · rw [if_pos hk] at hae
      right; exact hae.symm
    · rw [if_neg hk] at hae
      left; exact hae ▸ ha
  · rcases List.mem_append.mp h with h' | h'
    · left; exact h'
    · right; simpa using h'

theorem find?_replace_self {rows : List StatRow} {row : StatRow}
    (h : rows.any (keyMatch row.username row.stat_name) = true) :
    (rows.map (fun r => if keyMatch row.username row.stat_name r then row else r)).find?
      (keyMatch row.username row.stat_name) = some row := by
  induction rows with
  | nil => simp at h
  | cons a as ih =>
    by_cases hk : keyMatch row.username row.stat_name a = true
    · simp [hk, List.find?_cons_of_pos, keyMatch_self]
    · have h' : as.any (keyMatch row.username row.stat_name) = true := by
        simp only [List.any_cons, hk] at h
        simpa using h
      simp only [List.map_cons, if_neg hk]
      rw [List.find?_cons_of_neg _ (by simpa using hk)]
      exact ih h'

theorem find?_replace_other {rows : List StatRow} {row : StatRow} {u s : String}
    (h : ¬(row.username = u ∧ row.stat_name = s)) :
    (rows.map (fun r => if keyMatch row.username row.stat_name r then row else r)).find?
      (keyMatch u s) = rows.find? (keyMatch u s) := by
  have hrow : ¬ keyMatch u s row = true := fun hc => h (keyMatch_iff.mp hc)
  induction rows with
  | nil => rfl
  | cons a as ih =>
    by_cases hk : keyMatch row.username row.stat_name a = true
    · obtain ⟨ha1, ha2⟩ := keyMatch_iff.mp hk
      have ha : ¬ keyMatch u s a = true := fun hc => by
        obtain ⟨hc1, hc2⟩ := keyMatch_iff.mp hc
        exact h ⟨by rw [← ha1]; exact hc1, by rw [← ha2]; exact hc2⟩
      simp only [List.map_cons, if_pos hk]
      rw [List.find?_cons_of_neg _ (by simpa using hrow),
        List.find?_cons_of_neg _ (by simpa using ha)]
      exact ih
    · simp only [List.map_cons, if_neg hk]
      by_cases hp : keyMatch u s a = true
      · rw [List.find?_cons_of_pos _ hp, List.find?_cons_of_pos _ hp]
      · rw [List.find?_cons_of_neg _ (by simpa using hp),
          List.find?_cons_of_neg _ (by simpa using hp)]
        exact ih

theorem findRow_upsertRow_self (rows : List StatRow) (row : StatRow) :
    findRow (upsertRow rows row) row.username row.stat_name = some row := by
  unfold findRow upsertRow
  split_ifs with hc
  · exact find?_replace_self hc
  · rw [List.find?_append]
    have h1 : rows.find? (keyMatch row.username row.stat_name) = none := by
      rw [List.find?_eq_none]
      intro x hx hpx
      rw [List.any_eq_true] at hc
      exact hc ⟨x, hx, hpx⟩
    rw [h1]
    simp [List.find?_cons_of_pos, keyMatch_self]

theorem findRow_upsertRow_other (rows : List StatRow) (row : StatRow) {u s : String}
    (h : ¬(row.username = u ∧ row.stat_name = s)) :
    findRow (upsertRow rows row) u s = findRow rows u s := by
  have hrow : ¬ keyMatch u s row = true := fun hc => h (keyMatch_iff.mp hc)
  unfold findRow upsertRow
  split_ifs with hc
  · exact find?_replace_other h
  · rw [List.find?_append]
    have h1 : List.find? (keyMatch u s) [row] = none := by
      rw [List.find?_eq_none]
      intro x hx hpx
      rw [List.mem_singleton] at hx
      exact hrow (hx ▸ hpx)
    rw [h1]
    simp

theorem keysOf_map_replace (rows : List StatRow) (row : StatRow) :
    keysOf (rows.map (fun r => if keyMatch row.username row.stat_name r then row else r)) =
      keysOf rows := by
  unfold keysOf
  rw [List.map_map]
  apply List.map_congr_left
  intro a _
  by_cases hk : keyMatch row.username row.stat_name a = true
  · obtain ⟨h1, h2⟩ := keyMatch_iff.mp hk
    simp [Function.comp, hk, h1, h2]
  · simp [Function.comp, hk]

theorem TableWF_upsertRow {rows : List StatRow} (row : StatRow) (h : TableWF rows) :
    TableWF (upsertRow rows row) := by
  unfold upsertRow
  split_ifs with hc
  · unfold TableWF
    rw [keysOf_map_replace]
    exact h
  · unfold TableWF keysOf at h ⊢
    rw [List.map_append]
    rw [List.nodup_append]
    refine ⟨h, by simp, ?_⟩
    intro k hk1 hk2
    simp only [List.map_cons, List.map_nil, List.mem_singleton] at hk2
    obtain ⟨x, hx, hxk⟩ := List.mem_map.mp hk1
    rw [List.any_eq_true] at hc
    apply hc
    refine ⟨x, hx, ?_⟩
    rw [keyMatch_iff]
    rw [hk2] at hxk
    exact ⟨congrArg Prod.fst hxk, congrArg Prod.snd hxk⟩

/-! ### Read-path lemmas: the dict maps a stat to the view of the last row -/

theorem statDict_eq_getLast (view : StatRow → StatView) (rows : List StatRow) (s : String) :
    statDict view rows s =
      ((rows.filter (fun r => r.stat_name == s)).getLast?).map view := by
  induction rows using List.reverseRecOn with
  | nil => rfl
  | append_singleton as a ih =>
    unfold statDict at ih ⊢
    rw [List.foldl_append, List.foldl_cons, List.foldl_nil, List.filter_append]
    by_cases hs : s = a.stat_name
    · simp only [if_pos hs]
      have : (List.filter (fun r => r.stat_name == s) [a]) = [a] := by
        simp [List.filter, hs]
      rw [this, List.getLast?_concat]
      rfl
    · simp only [if_neg hs]
      have hbeq : (a.stat_name == s) = false := by
        rw [beq_eq_false_iff_ne]
        exact fun h => hs h.symm
      have : (List.filter (fun r => r.stat_name == s) [a]) = [] := by
        simp [List.filter_cons, hbeq]
      rw [this, List.append_nil]
      exact ih

theorem get_user_stats_eq_lastStatRow (db : DB) (u s : String) :
    get_user_stats db u s = (lastStatRow db u s).map rawView :=
  statDict_eq_getLast rawView (userRows db u) s

theorem get_user_stats_with_deltas_eq_lastStatRow (db : DB) (u s : String) :
    get_user_stats_with_deltas db u s = (lastStatRow db u s).map deltaView :=
  statDict_eq_getLast deltaView (userRows db u) s

theorem filter_userRows_eq_keyMatch (rows : List StatRow) (u s : String) :
    (rows.filter (fun r => r.username == u)).filter (fun r => r.stat_name == s) =
      rows.filter (keyMatch u s) := by
  rw [List.filter_filter]
  apply List.filter_congr
  intro r _
  simp [keyMatch, Bool.and_comm]

theorem lastStatRow_eq (db : DB) (u s : String) :
    lastStatRow db u s =
      (db.general_stats.filter (keyMatch u s) ++ db.sheep_stats.filter (keyMatch u s) ++
        db.ctw_stats.filter (keyMatch u s) ++ db.ww_stats.filter (keyMatch u s)).getLast? := by
  unfold lastStatRow userRows
  rw [List.filter_append, List.filter_append, List.filter_append,
    filter_userRows_eq_keyMatch, filter_userRows_eq_keyMatch,
    filter_userRows_eq_keyMatch, filter_userRows_eq_keyMatch]

/-! ### Locating a record among the rows a read visits -/

theorem filter_keyMatch_of_findRow_none {rows : List StatRow} {u s : String}
    (h : findRow rows u s = none) :
    rows.filter (keyMatch u s) = [] := by
  rw [List.filter_eq_nil_iff]
  intro r hr
  rw [findRow, List.find?_eq_none] at h
  exact h r hr

theorem filter_keyMatch_of_WF {rows : List StatRow} {u s : String} {w : StatRow}
    (hwf : TableWF rows) (h : findRow rows u s = some w) :
    rows.filter (keyMatch u s) = [w] := by
  induction rows with
  | nil => simp [findRow] at h
  | cons a as ih =>
    unfold TableWF keysOf at hwf
    rw [List.map_cons, List.nodup_cons] at hwf
    obtain ⟨hnot, hnd⟩ := hwf
    by_cases hp : keyMatch u s a = true
    · rw [findRow, List.find?_cons_of_pos _ hp] at h
      have haw := Option.some.inj h
      subst haw
      rw [List.filter_cons, if_pos hp]
      have hnil : as.filter (keyMatch u s) = [] := by
        rw [List.filter_eq_nil_iff]
        intro r hr hpr
        apply hnot
        obtain ⟨h1, h2⟩ := keyMatch_iff.mp hpr
        obtain ⟨h3, h4⟩ := keyMatch_iff.mp hp
        rw [List.mem_map]
        exact ⟨r, hr, by rw [h1, h2, h3, h4]⟩
      rw [hnil]
    · rw [findRow, List.find?_cons_of_neg _ hp] at h
      rw [List.filter_cons, if_neg hp]
      exact ih hnd h

theorem getTable_eq_general (db : DB) : db.getTable "general_stats" = db.general_stats := rfl

theorem getTable_eq_sheep (db : DB) : db.getTable "sheep_stats" = db.sheep_stats := rfl

theorem getTable_eq_ctw (db : DB) : db.getTable "ctw_stats" = db.ctw_stats := rfl

theorem getTable_eq_ww (db : DB) : db.getTable "ww_stats" = db.ww_stats := rfl

theorem lastStatRow_of_findRow {db : DB} {u s : String} {w : StatRow}
    (hwf : DBWF db)
    (hother : ∀ t ∈ tableNames, t ≠ get_stat_table s → findRow (db.getTable t) u s = none)
    (hmain : findRow (db.getTable (get_stat_table s)) u s = some w) :
    lastStatRow db u s = some w := by
  obtain ⟨w1, w2, w3, w4⟩ := hwf
  rw [lastStatRow_eq]
  have hmem : get_stat_table s = "general_stats" ∨ get_stat_table s = "sheep_stats" ∨
      get_stat_table s = "ctw_stats" ∨ get_stat_table s = "ww_stats" := by
    simpa [tableNames] using get_stat_table_mem s
  rcases hmem with hg | hg | hg | hg <;> rw [hg] at hmain hother
  · rw [getTable_eq_general] at hmain
    rw [filter_keyMatch_of_WF w1 hmain,
      filter_keyMatch_of_findRow_none (by
        have := hother "sheep_stats" (by simp [tableNames]) (by decide)
        rwa [getTable_eq_sheep] at this),
      filter_keyMatch_of_findRow_none (by
        have := hother "ctw_stats" (by simp [tableNames]) (by decide)
        rwa [getTable_eq_ctw] at this),
      filter_keyMatch_of_findRow_none (by
        have := hother "ww_stats" (by simp [tableNames]) (by decide)
        rwa [getTable_eq_ww] at this)]
    simp
  · rw [getTable_eq_sheep] at hmain
    rw [filter_keyMatch_of_WF w2 hmain,
      filter_keyMatch_of_findRow_none (by
        have := hother "general_stats" (by simp [tableNames]) (by decide)
        rwa [getTable_eq_general] at this),
      filter_keyMatch_of_findRow_none (by
        have := hother "ctw_stats" (by simp [tableNames]) (by decide)
        rwa [getTable_eq_ctw] at this),
      filter_keyMatch_of_findRow_none (by
        have := hother "ww_stats" (by simp [tableNames]) (by decide)
        rwa [getTable_eq_ww] at this)]
    simp
  · rw [getTable_eq_ctw] at hmain
    rw [filter_keyMatch_of_WF w3 hmain,
      filter_keyMatch_of_findRow_none (by
        have := hother "general_stats" (by simp [tableNames]) (by decide)
        rwa [getTable_eq_general] at this),
      filter_keyMatch_of_findRow_none (by
        have := hother "sheep_stats" (by simp [tableNames]) (by decide)
        rwa [getTable_eq_sheep] at this),
      filter_keyMatch_of_findRow_none (by
        have := hother "ww_stats" (by simp [tableNames]) (by decide)
        rwa [getTable_eq_ww] at this)]
    simp
  · rw [getTable_eq_ww] at hmain
    rw [filter_keyMatch_of_WF w4 hmain,
      filter_keyMatch_of_findRow_none (by
        have := hother "general_stats" (by simp [tableNames]) (by decide)
        rwa [getTable_eq_general] at this),
      filter_keyMatch_of_findRow_none (by
        have := hother "sheep_stats" (by simp [tableNames]) (by decide)
        rwa [getTable_eq_sheep] at this),
      filter_keyMatch_of_findRow_none (by
        have := hother "ctw_stats" (by simp [tableNames]) (by decide)
        rwa [getTable_eq_ctw] at this)]
    simp

/-! ### Update-path lemmas -/

theorem resolveRow_username (u s : String) (L : Int) (ss cats : List String)
    (t : String) (e : Option StatRow) :
    (resolveRow u s L ss cats t e).username = u := by
  unfold resolveRow
  cases e <;> rfl

theorem resolveRow_stat_name (u s : String) (L : Int) (ss cats : List String)
    (t : String) (e : Option StatRow) :
    (resolveRow u s L ss cats t e).stat_name = s := by
  unfold resolveRow
  cases e <;> rfl

theorem TableWF_getTable {db : DB} (hwf : DBWF db) (t : String) :
    TableWF (db.getTable t) := by
  obtain ⟨h1, h2, h3, h4⟩ := hwf
  unfold DB.getTable
  split_ifs <;> assumption

theorem DBWF_setTable {db : DB} {rows : List StatRow} (hwf : DBWF db)
    (hrows : TableWF rows) (t : String) : DBWF (db.setTable t rows) := by
  obtain ⟨h1, h2, h3, h4⟩ := hwf
  unfold DB.setTable
  split_ifs <;> exact ⟨by assumption, by assumption, by assumption, by assumption⟩

theorem DBWF_update_stat {db : DB} (hwf : DBWF db) (u : String)
    (ss cats : List String) (s : String) (L : Int) :
    DBWF (update_stat db u ss cats s L) := by
  unfold update_stat
  exact DBWF_setTable hwf (TableWF_upsertRow _ (TableWF_getTable hwf _)) _

theorem findRow_update_stat_self (db : DB) (u : String) (ss cats : List String)
    (s : String) (L : Int) :
    findRow ((update_stat db u ss cats s L).getTable (get_stat_table s)) u s =
      some (resolveRow u s L ss cats (get_stat_table s)
        (findRow (db.getTable (get_stat_table s)) u s)) := by
  unfold update_stat
  rw [getTable_setTable_self]
  have h := findRow_upsertRow_self (db.getTable (get_stat_table s))
    (resolveRow u s L ss cats (get_stat_table s)
      (findRow (db.getTable (get_stat_table s)) u s))
  rwa [resolveRow_username, resolveRow_stat_name] at h

theorem findRow_update_stat_other (db : DB) (u : String) (ss cats : List String)
    (s : String) (L : Int) {u2 s2 t : String} (ht : t ∈ tableNames)
    (h : ¬(u2 = u ∧ s2 = s) ∨ t ≠ get_stat_table s) :
    findRow ((update_stat db u ss cats s L).getTable t) u2 s2 =
      findRow (db.getTable t) u2 s2 := by
  unfold update_stat
  by_cases hteq : t = get_stat_table s
  · subst hteq
    rw [getTable_setTable_self]
    have hkey : ¬(u2 = u ∧ s2 = s) := by
      rcases h with h | h
      · exact h
      · exact absurd rfl h
    apply findRow_upsertRow_other
    rw [resolveRow_username, resolveRow_stat_name]
    exact fun hc => hkey ⟨hc.1.symm, hc.2.symm⟩
  · rw [getTable_setTable_other _ _ (get_stat_table_mem s) ht hteq]

theorem mem_update_stat_allRows {db : DB} {u : String} {ss cats : List String}
    {s : String} {L : Int} {r : StatRow}
    (h : r ∈ (update_stat db u ss cats s L).allRows) :
    r ∈ db.allRows ∨ r.username = u := by
  unfold update_stat at h
  rcases mem_allRows_setTable h with h' | h'
  · exact Or.inl h'
  · rcases mem_upsertRow h' with h'' | rfl
    · exact Or.inl (mem_getTable_allRows h'')
    · exact Or.inr (resolveRow_username ..)

theorem DBWF_update_canon {db : DB} (hwf : DBWF db) (u : String)
    (stats : List (String × Int)) (ss cats : List String) :
    DBWF (update_canon db u stats ss cats) := by
  induction stats generalizing db with
  | nil => exact hwf
  | cons p rest ih => exact ih (DBWF_update_stat hwf u ss cats p.1 p.2)

theorem mem_update_canon_allRows {db : DB} {u : String} {stats : List (String × Int)}
    {ss cats : List String} {r : StatRow}
    (h : r ∈ (update_canon db u stats ss cats).allRows) :
    r ∈ db.allRows ∨ r.username = u := by
  induction stats generalizing db with
  | nil => exact Or.inl h
  | cons p rest ih =>
    rcases ih h with h' | h'
    · exact mem_update_stat_allRows h'
    · exact Or.inr h'

theorem findRow_update_canon_other (db : DB) (u : String)
    (stats : List (String × Int)) (ss cats : List String) {u2 s2 t : String}
    (ht : t ∈ tableNames)
    (h : u2 ≠ u ∨ s2 ∉ stats.map Prod.fst ∨ t ≠ get_stat_table s2) :
    findRow ((update_canon db u stats ss cats).getTable t) u2 s2 =
      findRow (db.getTable t) u2 s2 := by
  induction stats generalizing db with
  | nil => rfl
  | cons p rest ih =>
    have hstep : ¬(u2 = u ∧ s2 = p.1) ∨ t ≠ get_stat_table p.1 := by
      rcases h with h | h | h
      · exact Or.inl fun hc => h hc.1
      · exact Or.inl fun hc => h (by simp [hc.2])
      · by_cases hs : s2 = p.1
        · exact Or.inr (hs ▸ h)
        · exact Or.inl fun hc => hs hc.2
    have hrest : u2 ≠ u ∨ s2 ∉ rest.map Prod.fst ∨ t ≠ get_stat_table s2 := by
      rcases h with h | h | h
      · exact Or.inl h
      · exact Or.inr (Or.inl fun hc => h (by simp [hc]))
      · exact Or.inr (Or.inr h)
    calc findRow ((update_canon (update_stat db u ss cats p.1 p.2) u rest ss cats).getTable t) u2 s2
        = findRow ((update_stat db u ss cats p.1 p.2).getTable t) u2 s2 := ih _ hrest
      _ = findRow (db.getTable t) u2 s2 := findRow_update_stat_other db u ss cats p.1 p.2 ht hstep

theorem findRow_update_canon_self (db : DB) (u : String)
    {stats : List (String × Int)} (ss cats : List String) {s : String} {L : Int}
    (hnd : (stats.map Prod.fst).Nodup) (hmem : (s, L) ∈ stats) :
    findRow ((update_canon db u stats ss cats).getTable (get_stat_table s)) u s =
      some (resolveRow u s L ss cats (get_stat_table s)
        (findRow (db.getTable (get_stat_table s)) u s)) := by
  induction stats generalizing db with
  | nil => simp at hmem
  | cons p rest ih =>
    rw [List.map_cons, List.nodup_cons] at hnd
    obtain ⟨hp1, hnd'⟩ := hnd
    rcases List.mem_cons.mp hmem with heq | hmem'
    · obtain rfl : p = (s, L) := heq.symm
      have hframe : findRow ((update_canon (update_stat db u ss cats s L) u rest ss cats).getTable
          (get_stat_table s)) u s =
          findRow ((update_stat db u ss cats s L).getTable (get_stat_table s)) u s :=
        findRow_update_canon_other _ u rest ss cats (get_stat_table_mem s)
          (Or.inr (Or.inl hp1))
      rw [update_canon, List.foldl_cons]
      rw [show (List.foldl (fun db p => update_stat db u ss cats p.1 p.2)
          (update_stat db u ss cats s L) rest) =
          update_canon (update_stat db u ss cats s L) u rest ss cats from rfl]
      rw [hframe, findRow_update_stat_self]
    · have hne : s ≠ p.1 := by
        intro hc
        apply hp1
        rw [← hc]
        exact List.mem_map.mpr ⟨(s, L), hmem', rfl⟩
      rw [update_canon, List.foldl_cons]
      rw [show (List.foldl (fun db p => update_stat db u ss cats p.1 p.2)
          (update_stat db u ss cats p.1 p.2) rest) =
          update_canon (update_stat db u ss cats p.1 p.2) u rest ss cats from rfl]
      rw [ih _ hnd' hmem']
      rw [findRow_update_stat_other db u ss cats p.1 p.2 (get_stat_table_mem s)
        (Or.inl fun hc => hne hc.2)]

/-! ### Canonical-casing lookup lemmas -/

theorem existing_user_eq_none {db : DB} {u : String}
    (h : ∀ r ∈ db.allRows, strLower r.username ≠ strLower u) :
    existing_user db u = none := by
  unfold existing_user
  have : db.allRows.find? (fun r => strLower r.username == strLower u) = none := by
    rw [List.find?_eq_none]
    intro r hr hc
    exact h r hr (by simpa using hc)
  rw [this]
  rfl

theorem existing_user_eq_some {db : DB} {u c : String}
    (hex : ∃ r ∈ db.allRows, r.username = c)
    (hlow : strLower c = strLower u)
    (hcanon : ∀ r ∈ db.allRows, strLower r.username = strLower u → r.username = c) :
    existing_user db u = some c := by
  unfold existing_user
  have hsome : (db.allRows.find? (fun r => strLower r.username == strLower u)).isSome := by
    rw [List.find?_isSome]
    obtain ⟨r, hr, hru⟩ := hex
    exact ⟨r, hr, by rw [hru, hlow]; simp⟩
  obtain ⟨r0, hr0⟩ := Option.isSome_iff_exists.mp hsome
  rw [hr0]
  have hmem := List.mem_of_find?_eq_some hr0
  have hp := List.find?_some hr0
  simp only [beq_iff_eq] at hp
  simp [hcanon r0 hmem hp]

theorem exists_row_update_canon (db : DB) (u : String)
    {stats : List (String × Int)} (ss cats : List String)
    (hne : stats ≠ []) (hnd : (stats.map Prod.fst).Nodup) :
    ∃ r ∈ (update_canon db u stats ss cats).allRows, r.username = u := by
  obtain ⟨⟨s, L⟩, rest, rfl⟩ := List.exists_cons_of_ne_nil hne
  have hfind := findRow_update_canon_self db u ss cats hnd (List.mem_cons_self _ _)
  refine ⟨resolveRow u s L ss cats (get_stat_table s)
    (findRow (db.getTable (get_stat_table s)) u s), ?_, resolveRow_username ..⟩
  exact mem_getTable_allRows (List.mem_of_find?_eq_some hfind)

/-! ### Classifier helper -/

theorem strStartsWith_ww_not_ctw {s : String} (h : strStartsWith s "ww_" = true) :
    strStartsWith s "ctw_" = false := by
  cases s with
  | mk data =>
    simp [strStartsWith, List.isPrefixOf_iff_prefix] at h
    obtain ⟨t, rfl⟩ := h
    rfl

/-! ### Claim theorems -/

/-- C1: for every stat record of a player, the delta reader reports, for each
window, exactly `l − b` (stored lifetime minus stored baseline), computed
independently per window and per stat; NULL lifetime/baseline fields are read
as 0, and negative differences are returned unclamped. -/
theorem C1_delta_identity (db : DB) (u s : String) (r : StatRow)
    (h : lastStatRow db u s = some r) :
    get_user_stats_with_deltas db u s = some
      { lifetime := r.lifetime.getD 0
        session := r.lifetime.getD 0 - r.session.getD 0
        daily := r.lifetime.getD 0 - r.daily.getD 0
        yesterday := r.lifetime.getD 0 - r.yesterday.getD 0
        weekly := r.lifetime.getD 0 - r.weekly.getD 0
        monthly := r.lifetime.getD 0 - r.monthly.getD 0 } := by
  rw [get_user_stats_with_deltas_eq_lastStatRow, h]
  rfl

/-- C1 witness: on the legacy record `rowNeo` (lifetime 3, NULL session,
daily baseline 10 > lifetime) the reader reports session delta `3 − 0 = 3`
and daily delta `3 − 10 = −7`, unclamped. -/
theorem C1_delta_identity_witness :
    lastStatRow dbNeo "Neo" "kills" = some rowNeo ∧
      get_user_stats_with_deltas dbNeo "Neo" "kills" = some ⟨3, 3, -7, 2, 3, -2⟩ := by
  refine ⟨by decide, ?_⟩
  have h := C1_delta_identity dbNeo "Neo" "kills" rowNeo (by decide)
  rw [h]
  decide

/-- Shared core: a player with no rows in any partition reads as empty. -/
theorem reads_none_of_absent (db : DB) (u : String)
    (h : ∀ r ∈ db.allRows, r.username ≠ u) :
    ∀ s, get_user_stats db u s = none ∧ get_user_stats_with_deltas db u s = none := by
  have hg : ∀ (l : List StatRow), (∀ r ∈ l, r ∈ db.allRows) →
      l.filter (fun r => r.username == u) = [] := by
    intro l hl
    rw [List.filter_eq_nil_iff]
    intro r hr hc
    exact h r (hl r hr) (by simpa using hc)
  have huser : userRows db u = [] := by
    unfold userRows
    rw [hg db.general_stats (fun r hr => by unfold DB.allRows; simp [hr]),
      hg db.sheep_stats (fun r hr => by unfold DB.allRows; simp [hr]),
      hg db.ctw_stats (fun r hr => by unfold DB.allRows; simp [hr]),
      hg db.ww_stats (fun r hr => by unfold DB.allRows; simp [hr])]
    rfl
  intro s
  rw [get_user_stats_eq_lastStatRow, get_user_stats_with_deltas_eq_lastStatRow]
  unfold lastStatRow
  rw [huser]
  exact ⟨rfl, rfl⟩

/-- C9: reading a player that has no records in any partition yields an empty
mapping (for both read operations); it is not an error. -/
theorem C9_absent_player_empty (db : DB) (u : String)
    (h : ∀ r ∈ db.allRows, r.username ≠ u) :
    ∀ s, get_user_stats db u s = none ∧ get_user_stats_with_deltas db u s = none :=
  reads_none_of_absent db u h

/-- C9 witness: the store `dbNeo` holds no record for player Trinity, and
both reads return the empty mapping. -/
theorem C9_absent_player_empty_witness :
    get_user_stats dbNeo "Trinity" "kills" = none ∧
      get_user_stats_with_deltas dbNeo "Trinity" "kills" = none :=
  C9_absent_player_empty dbNeo "Trinity" (by decide) "kills"

/-- C8: for new records the bootstrap-category branch and the default
new-record branch write identical baselines, so the state written by
`update_user_stats` does not depend on the `new_stat_categories` argument
at all. -/
theorem C8_bootstrap_equivalence (db : DB) (u : String) (stats : List (String × Int))
    (ss cats cats' : List String) :
    update_user_stats db u stats ss cats = update_user_stats db u stats ss cats' := by
  have hres : ∀ (u' s : String) (L : Int) (t : String) (e : Option StatRow),
      resolveRow u' s L ss cats t e = resolveRow u' s L ss cats' t e := by
    intro u' s L t e
    unfold resolveRow
    cases e with
    | some r => rfl
    | none => simp
  have hstat : ∀ (d : DB) (c s : String) (L : Int),
      update_stat d c ss cats s L = update_stat d c ss cats' s L := by
    intro d c s L
    unfold update_stat
    simp only [hres]
  unfold update_user_stats update_canon
  have hfun : (fun (d : DB) (p : String × Int) =>
        update_stat d ((existing_user db u).getD u) ss cats p.1 p.2) =
      (fun (d : DB) (p : String × Int) =>
        update_stat d ((existing_user db u).getD u) ss cats' p.1 p.2) := by
    funext d p
    exact hstat d _ p.1 p.2
  rw [hfun]

/-- C7: the category classifier is a pure total function of the stat name
that always yields exactly one of the four partitions, resolved in order
(general set, sheep set, ctw prefix-or-set, ww prefix-or-set, sheep
fallback); any name carrying a reserved mode prefix that is in no earlier
set lands in that mode's partition. -/
theorem C7_classifier (s : String) :
    get_stat_table s ∈ tableNames ∧
    (GENERAL_STATS.contains s = true → get_stat_table s = "general_stats") ∧
    (GENERAL_STATS.contains s = false → SHEEP_STATS.contains s = true →
      get_stat_table s = "sheep_stats") ∧
    (GENERAL_STATS.contains s = false → SHEEP_STATS.contains s = false →
      (strStartsWith s "ctw_" || CTW_STATS.contains s) = true →
      get_stat_table s = "ctw_stats") ∧
    (GENERAL_STATS.contains s = false → SHEEP_STATS.contains s = false →
      (strStartsWith s "ctw_" || CTW_STATS.contains s) = false →
      (strStartsWith s "ww_" || WW_STATS.contains s) = true →
      get_stat_table s = "ww_stats") ∧
    (GENERAL_STATS.contains s = false → SHEEP_STATS.contains s = false →
      (strStartsWith s "ctw_" || CTW_STATS.contains s) = false →
      (strStartsWith s "ww_" || WW_STATS.contains s) = false →
      get_stat_table s = "sheep_stats") ∧
    (strStartsWith s "ctw_" = true → GENERAL_STATS.contains s = false →
      SHEEP_STATS.contains s = false → get_stat_table s = "ctw_stats") ∧
    (strStartsWith s "ww_" = true → GENERAL_STATS.contains s = false →
      SHEEP_STATS.contains s = false → CTW_STATS.contains s = false →
      get_stat_table s = "ww_stats") := by
  refine ⟨get_stat_table_mem s, ?_, ?_, ?_, ?_, ?_, ?_, ?_⟩
  · intro h1
    unfold get_stat_table
    simp_all
  · intro h1 h2
    unfold get_stat_table
    simp_all
  · intro h1 h2 h3
    unfold get_stat_table
    simp_all
  · intro h1 h2 h3 h4
    unfold get_stat_table
    simp_all
  · intro h1 h2 h3 h4
    unfold get_stat_table
    simp_all
  · intro hp h1 h2
    unfold get_stat_table
    simp_all
  · intro hp h1 h2 h3
    have hctw : strStartsWith s "ctw_" = false := strStartsWith_ww_not_ctw hp
    unfold get_stat_table
    simp_all

/-- C7 witness: the synthetic, nowhere-enumerated names `ctw_zzz` and
`ww_zzz` are routed to their mode partitions by prefix alone. -/
theorem C7_classifier_witness :
    get_stat_table "ctw_zzz" = "ctw_stats" ∧ get_stat_table "ww_zzz" = "ww_stats" :=
  ⟨(C7_classifier "ctw_zzz").2.2.2.2.2.2.1 (by decide) (by decide) (by decide),
   (C7_classifier "ww_zzz").2.2.2.2.2.2.2 (by decide) (by decide) (by decide) (by decide)⟩

/-- C10: when an existing record has NULL baseline columns, an update for
that stat fills every NULL baseline with the new lifetime value even for
windows not in the rebaseline set, so after the update all five baseline
columns of the touched record are present. -/
theorem C10_null_baselines_filled (db : DB) (u s : String) (L : Int)
    (ss cats : List String) (r0 : StatRow)
    (hr0 : findRow (db.getTable (get_stat_table s)) ((existing_user db u).getD u) s =
      some r0) :
    ∃ w, findRow ((update_user_stats db u [(s, L)] ss cats).getTable (get_stat_table s))
        ((existing_user db u).getD u) s = some w ∧
      w.lifetime = some L ∧
      w.session.isSome ∧ w.daily.isSome ∧ w.yesterday.isSome ∧
      w.weekly.isSome ∧ w.monthly.isSome ∧
      (r0.session = none → w.session = some L) ∧
      (r0.daily = none → w.daily = some L) ∧
      (r0.yesterday = none → w.yesterday = some L) ∧
      (r0.weekly = none → w.weekly = some L) ∧
      (r0.monthly = none → w.monthly = some L) := by
  have hfind : findRow ((update_user_stats db u [(s, L)] ss cats).getTable (get_stat_table s))
      ((existing_user db u).getD u) s =
      some (resolveRow ((existing_user db u).getD u) s L ss cats (get_stat_table s)
        (findRow (db.getTable (get_stat_table s)) ((existing_user db u).getD u) s)) := by
    unfold update_user_stats
    exact findRow_update_canon_self db _ ss cats (by simp) (by simp)
  rw [hr0] at hfind
  refine ⟨_, hfind, rfl, ?_, ?_, ?_, ?_, ?_, ?_, ?_, ?_, ?_, ?_⟩
  · simp [resolveRow]
  · simp [resolveRow]
  · simp [resolveRow]
  · simp [resolveRow]
  · simp [resolveRow]
  · intro h
    simp [resolveRow, h]
  · intro h
    simp [resolveRow, h]
  · intro h
    simp [resolveRow, h]
  · intro h
    simp [resolveRow, h]
  · intro h
    simp [resolveRow, h]

/-- C10 witness: updating the legacy record `rowOld` (NULL session, daily,
weekly, monthly) with lifetime 8 and an empty rebaseline set fills every
NULL baseline with 8 and keeps the present yesterday baseline. -/
theorem C10_null_baselines_filled_witness :
    ∃ w, findRow ((update_user_stats dbOld "Old" [("kills", 8)] [] []).getTable
        (get_stat_table "kills")) ((existing_user dbOld "Old").getD "Old") "kills" = some w ∧
      w.lifetime = some 8 ∧
      w.session.isSome ∧ w.daily.isSome ∧ w.yesterday.isSome ∧
      w.weekly.isSome ∧ w.monthly.isSome ∧
      (rowOld.session = none → w.session = some 8) ∧
      (rowOld.daily = none → w.daily = some 8) ∧
      (rowOld.yesterday = none → w.yesterday = some 8) ∧
      (rowOld.weekly = none → w.weekly = some 8) ∧
      (rowOld.monthly = none → w.monthly = some 8) :=
  C10_null_baselines_filled dbOld "Old" "kills" 8 [] [] rowOld (by decide)

/-- C4: for an existing record, an update whose rebaseline set does not
contain a window leaves that window's stored (present) baseline unchanged;
in particular, after a daily-to-yesterday rotation puts 10 into the
yesterday baseline, an update re-baselining only `daily` to lifetime 15
leaves the yesterday baseline at 10. -/
theorem C4_rebaseline_frame (db : DB) (u s : String) (L : Int)
    (ss cats : List String) (r0 : StatRow)
    (hr0 : findRow (db.getTable (get_stat_table s)) ((existing_user db u).getD u) s =
      some r0) :
    (∃ w, findRow ((update_user_stats db u [(s, L)] ss cats).getTable (get_stat_table s))
        ((existing_user db u).getD u) s = some w ∧
      w.lifetime = some L ∧
      ∀ win ∈ windowNames, ss.contains win = false → (baselineOf r0 win).isSome →
        baselineOf w win = baselineOf r0 win) ∧
    findRow (dbBobUpd.getTable (get_stat_table "kills")) "Bob" "kills" =
      some ⟨"Bob", "kills", some 15, some 2, some 15, some 10, some 6, some 8⟩ := by
  refine ⟨?_, by decide⟩
  have hfind : findRow ((update_user_stats db u [(s, L)] ss cats).getTable (get_stat_table s))
      ((existing_user db u).getD u) s =
      some (resolveRow ((existing_user db u).getD u) s L ss cats (get_stat_table s)
        (findRow (db.getTable (get_stat_table s)) ((existing_user db u).getD u) s)) := by
    unfold update_user_stats
    exact findRow_update_canon_self db _ ss cats (by simp) (by simp)
  rw [hr0] at hfind
  refine ⟨_, hfind, rfl, ?_⟩
  intro win hwin hss hsome
  obtain ⟨x, hx⟩ := Option.isSome_iff_exists.mp hsome
  have hwin' : win = "session" ∨ win = "daily" ∨ win = "yesterday" ∨
      win = "weekly" ∨ win = "monthly" := by simpa [windowNames] using hwin
  rcases hwin' with rfl | rfl | rfl | rfl | rfl <;>
    · rw [baselineOf] at hx ⊢
      simp_all [resolveRow, baselineOf]

/-- C4 witness: instantiating the frame property on the rotated store
`dbBobRot` with an update that re-baselines only `daily`. -/
theorem C4_rebaseline_frame_witness :
    (∃ w, findRow ((update_user_stats dbBobRot "Bob" [("kills", 15)] ["daily"] []).getTable
        (get_stat_table "kills")) ((existing_user dbBobRot "Bob").getD "Bob") "kills" = some w ∧
      w.lifetime = some 15 ∧
      ∀ win ∈ windowNames, (["daily"] : List String).contains win = false →
        (baselineOf ⟨"Bob", "kills", some 12, some 2, some 10, some 10, some 6, some 8⟩
          win).isSome →
        baselineOf w win =
          baselineOf ⟨"Bob", "kills", some 12, some 2, some 10, some 10, some 6, some 8⟩ win) ∧
    findRow (dbBobUpd.getTable (get_stat_table "kills")) "Bob" "kills" =
      some ⟨"Bob", "kills", some 15, some 2, some 15, some 10, some 6, some 8⟩ :=
  C4_rebaseline_frame dbBobRot "Bob" "kills" 15 ["daily"] []
    ⟨"Bob", "kills", some 12, some 2, some 10, some 10, some 6, some 8⟩ (by decide)

/-! ### Rotation lemmas -/

theorem foldl_rotateUserDaily (usernames : List String) (db : DB) :
    usernames.foldl rotateUserDaily db =
      ⟨List.foldl rotateRowsDaily db.general_stats usernames,
       List.foldl rotateRowsDaily db.sheep_stats usernames,
       List.foldl rotateRowsDaily db.ctw_stats usernames,
       List.foldl rotateRowsDaily db.ww_stats usernames⟩ := by
  induction usernames generalizing db with
  | nil => rfl
  | cons u us ih =>
    rw [List.foldl_cons, ih]
    rfl

theorem foldl_resetUserWeekly (usernames : List String) (db : DB) :
    usernames.foldl resetUserWeekly db =
      ⟨List.foldl resetRowsWeekly db.general_stats usernames,
       List.foldl resetRowsWeekly db.sheep_stats usernames,
       List.foldl resetRowsWeekly db.ctw_stats usernames,
       List.foldl resetRowsWeekly db.ww_stats usernames⟩ := by
  induction usernames generalizing db with
  | nil => rfl
  | cons u us ih =>
    rw [List.foldl_cons, ih]
    rfl

theorem foldl_rotateRowsDaily (usernames : List String) (rows : List StatRow) :
    List.foldl rotateRowsDaily rows usernames =
      rows.map (fun r => if usernames.contains r.username then
        { r with yesterday := r.daily } else r) := by
  induction usernames generalizing rows with
  | nil => simp
  | cons u us ih =>
    rw [List.foldl_cons, ih]
    unfold rotateRowsDaily
    rw [List.map_map]
    apply List.map_congr_left
    intro r _
    by_cases hu : (r.username == u) = true
    · have hru : r.username = u := by simpa using hu
      by_cases hus : us.contains u = true
      · simp [Function.comp, hu, hru, List.contains_cons, hus]
      · simp [Function.comp, hu, hru, List.contains_cons, hus]
    · have hne : ¬ r.username = u := by simpa using hu
      simp [Function.comp, hu, List.contains_cons, hne]

theorem foldl_resetRowsWeekly (usernames : List String) (rows : List StatRow) :
    List.foldl resetRowsWeekly rows usernames =
      rows.map (fun r => if usernames.contains r.username then
        { r with weekly := r.lifetime } else r) := by
  induction usernames generalizing rows with
  | nil => simp
  | cons u us ih =>
    rw [List.foldl_cons, ih]
    unfold resetRowsWeekly
    rw [List.map_map]
    apply List.map_congr_left
    intro r _
    by_cases hu : (r.username == u) = true
    · have hru : r.username = u := by simpa using hu
      by_cases hus : us.contains u = true
      · simp [Function.comp, hu, hru, List.contains_cons, hus]
      · simp [Function.comp, hu, hru, List.contains_cons, hus]
    · have hne : ¬ r.username = u := by simpa using hu
      simp [Function.comp, hu, List.contains_cons, hne]

/-- C5: the daily rotation writes only the yesterday baseline (copying the
daily baseline) and the weekly reset writes only the weekly baseline
(copying lifetime); no other column of any record changes, rows of players
not in the list are untouched, and each operation returns a result map
sending every given player to success. -/
theorem C5_rotation_writes_only_target (db : DB) (usernames : List String) :
    ((rotate_daily_to_yesterday db usernames).1 =
      ⟨db.general_stats.map (fun r => if usernames.contains r.username then
          { r with yesterday := r.daily } else r),
        db.sheep_stats.map (fun r => if usernames.contains r.username then
          { r with yesterday := r.daily } else r),
        db.ctw_stats.map (fun r => if usernames.contains r.username then
          { r with yesterday := r.daily } else r),
        db.ww_stats.map (fun r => if usernames.contains r.username then
          { r with yesterday := r.daily } else r)⟩) ∧
    ((reset_weekly_snapshots db usernames).1 =
      ⟨db.general_stats.map (fun r => if usernames.contains r.username then
          { r with weekly := r.lifetime } else r),
        db.sheep_stats.map (fun r => if usernames.contains r.username then
          { r with weekly := r.lifetime } else r),
        db.ctw_stats.map (fun r => if usernames.contains r.username then
          { r with weekly := r.lifetime } else r),
        db.ww_stats.map (fun r => if usernames.contains r.username then
          { r with weekly := r.lifetime } else r)⟩) ∧
    (∀ u ∈ usernames, (rotate_daily_to_yesterday db usernames).2 u = some true) ∧
    (∀ u ∈ usernames, (reset_weekly_snapshots db usernames).2 u = some true) := by
  refine ⟨?_, ?_, ?_, ?_⟩
  · show usernames.foldl rotateUserDaily db = _
    rw [foldl_rotateUserDaily, foldl_rotateRowsDaily, foldl_rotateRowsDaily,
      foldl_rotateRowsDaily, foldl_rotateRowsDaily]
  · show usernames.foldl resetUserWeekly db = _
    rw [foldl_resetUserWeekly, foldl_resetRowsWeekly, foldl_resetRowsWeekly,
      foldl_resetRowsWeekly, foldl_resetRowsWeekly]
  · intro u hu
    show (if usernames.contains u then some true else none) = some true
    simp [hu]
  · intro u hu
    show (if usernames.contains u then some true else none) = some true
    simp [hu]

/-- C5 witness: rotating and resetting the one-record store `dbBob` for Bob. -/
theorem C5_rotation_writes_only_target_witness :
    (rotate_daily_to_yesterday dbBob ["Bob"]).2 "Bob" = some true ∧
    (reset_weekly_snapshots dbBob ["Bob"]).2 "Bob" = some true ∧
    (rotate_daily_to_yesterday dbBob ["Bob"]).1 =
      ⟨[], [⟨"Bob", "kills", some 12, some 2, some 10, some 10, some 6, some 8⟩], [], []⟩ ∧
    (reset_weekly_snapshots dbBob ["Bob"]).1 =
      ⟨[], [⟨"Bob", "kills", some 12, some 2, some 10, some 4, some 12, some 8⟩], [], []⟩ := by
  refine ⟨(C5_rotation_writes_only_target dbBob ["Bob"]).2.2.1 "Bob" (by decide),
    (C5_rotation_writes_only_target dbBob ["Bob"]).2.2.2 "Bob" (by decide), ?_, ?_⟩
  · rw [(C5_rotation_writes_only_target dbBob ["Bob"]).1]
    decide
  · rw [(C5_rotation_writes_only_target dbBob ["Bob"]).2.1]
    decide

/-- C3: updating a brand-new (player, stat) pair with lifetime `L`, an empty
rebaseline set and an empty bootstrap set stores all five baselines equal to
`L`, and the next delta read reports lifetime `L` with all five window
deltas 0. -/
theorem C3_first_seen_zero_delta (db : DB) (u s : String) (L : Int)
    (stats : List (String × Int))
    (hwf : DBWF db)
    (hnd : (stats.map Prod.fst).Nodup) (hmem : (s, L) ∈ stats)
    (habs : ∀ t ∈ tableNames, findRow (db.getTable t) ((existing_user db u).getD u) s = none) :
    findRow ((update_user_stats db u stats [] []).getTable (get_stat_table s))
        ((existing_user db u).getD u) s =
      some ⟨(existing_user db u).getD u, s, some L, some L, some L, some L, some L, some L⟩ ∧
    get_user_stats_with_deltas (update_user_stats db u stats [] [])
        ((existing_user db u).getD u) s = some ⟨L, 0, 0, 0, 0, 0⟩ := by
  have hmain : findRow ((update_user_stats db u stats [] []).getTable (get_stat_table s))
      ((existing_user db u).getD u) s =
      some (resolveRow ((existing_user db u).getD u) s L [] [] (get_stat_table s)
        (findRow (db.getTable (get_stat_table s)) ((existing_user db u).getD u) s)) := by
    unfold update_user_stats
    exact findRow_update_canon_self db _ [] [] hnd hmem
  rw [habs (get_stat_table s) (get_stat_table_mem s)] at hmain
  have hw : resolveRow ((existing_user db u).getD u) s L [] [] (get_stat_table s) none =
      ⟨(existing_user db u).getD u, s, some L, some L, some L, some L, some L, some L⟩ := by
    simp [resolveRow]
  rw [hw] at hmain
  refine ⟨hmain, ?_⟩
  have hother : ∀ t ∈ tableNames, t ≠ get_stat_table s →
      findRow ((update_user_stats db u stats [] []).getTable t)
        ((existing_user db u).getD u) s = none := by
    intro t ht htne
    unfold update_user_stats
    rw [findRow_update_canon_other db _ stats [] [] ht (Or.inr (Or.inr htne))]
    exact habs t ht
  have hwf' : DBWF (update_user_stats db u stats [] []) := by
    unfold update_user_stats
    exact DBWF_update_canon hwf _ stats [] []
  have hlast := lastStatRow_of_findRow hwf' hother hmain
  rw [get_user_stats_with_deltas_eq_lastStatRow, hlast]
  simp [deltaView]

/-- C3 witness: first update of Bob's kills with lifetime 50 on the empty
store makes the next delta read report lifetime 50 and five zero deltas. -/
theorem C3_first_seen_zero_delta_witness :
    findRow ((update_user_stats emptyDB "Bob" [("kills", 50)] [] []).getTable
        (get_stat_table "kills")) ((existing_user emptyDB "Bob").getD "Bob") "kills" =
      some ⟨(existing_user emptyDB "Bob").getD "Bob", "kills",
        some 50, some 50, some 50, some 50, some 50, some 50⟩ ∧
    get_user_stats_with_deltas (update_user_stats emptyDB "Bob" [("kills", 50)] [] [])
        ((existing_user emptyDB "Bob").getD "Bob") "kills" = some ⟨50, 0, 0, 0, 0, 0⟩ :=
  C3_first_seen_zero_delta emptyDB "Bob" "kills" 50 [("kills", 50)]
    (by decide) (by decide) (by decide) (by decide)

/-! ### Lemmas for the case-insensitive identity claim -/

theorem length_filter_le_one_of_WF {rows : List StatRow} {p : StatRow → Bool}
    {u s : String} (hwf : TableWF rows)
    (hp : ∀ r ∈ rows, p r = true → r.username = u ∧ r.stat_name = s) :
    (rows.filter p).length ≤ 1 := by
  induction rows with
  | nil => simp
  | cons a as ih =>
    unfold TableWF keysOf at hwf
    rw [List.map_cons, List.nodup_cons] at hwf
    obtain ⟨hnot, hnd⟩ := hwf
    by_cases hpa : p a = true
    · rw [List.filter_cons, if_pos hpa]
      obtain ⟨ha1, ha2⟩ := hp a (List.mem_cons_self a as) hpa
      have hnil : as.filter p = [] := by
        rw [List.filter_eq_nil_iff]
        intro r hr hpr
        obtain ⟨h1, h2⟩ := hp r (List.mem_cons_of_mem a hr) hpr
        apply hnot
        rw [List.mem_map]
        exact ⟨r, hr, by rw [h1, h2, ha1, ha2]⟩
      simp [hnil]
    · rw [List.filter_cons, if_neg hpa]
      exact ih hnd (fun r hr => hp r (List.mem_cons_of_mem a hr))

theorem lastStatRow_isSome_of_findRow {db : DB} {u s t : String} {w : StatRow}
    (ht : t ∈ tableNames) (h : findRow (db.getTable t) u s = some w) :
    (lastStatRow db u s).isSome := by
  have hmemw := List.mem_of_find?_eq_some h
  have hpw := List.find?_some h
  have hfil : w ∈ (db.getTable t).filter (keyMatch u s) :=
    List.mem_filter.mpr ⟨hmemw, hpw⟩
  rw [lastStatRow_eq, List.getLast?_isSome]
  have ht' : t = "general_stats" ∨ t = "sheep_stats" ∨ t = "ctw_stats" ∨ t = "ww_stats" := by
    simpa [tableNames] using ht
  apply List.ne_nil_of_mem (a := w)
  rcases ht' with rfl | rfl | rfl | rfl
  · rw [getTable_eq_general] at hfil
    simp only [List.mem_append]
    tauto
  · rw [getTable_eq_sheep] at hfil
    simp only [List.mem_append]
    tauto
  · rw [getTable_eq_ctw] at hfil
    simp only [List.mem_append]
    tauto
  · rw [getTable_eq_ww] at hfil
    simp only [List.mem_append]
    tauto

/-- C2 counterexample: after `update("Alice", {kills: 5})` followed by
`update("alice", {kills: 3, coins: 7})`, the read `get("ALICE")` returns the
empty mapping — not the merged record — because the read filters on the
exact username; only the canonical casing "Alice" sees the merged stats. -/
theorem C2_counterexample :
    get_user_stats dbAlice2 "ALICE" "kills" = none ∧
    get_user_stats dbAlice2 "ALICE" "coins" = none ∧
    get_user_stats dbAlice2 "Alice" "kills" = some ⟨3, 5, 5, 5, 5, 5⟩ ∧
    get_user_stats dbAlice2 "Alice" "coins" = some ⟨7, 7, 7, 7, 7, 7⟩ := by
  decide

/-- C2 (amended): both updates write to one canonical record keyed by the
first-seen casing — afterwards every row of the identity carries that casing
and no partition holds more than one row per (player, stat) even
case-insensitively; a read with the canonical casing returns the merged
mapping (every stat of either update present), while a read with any other
case variant returns the empty mapping, since reads are exact-match. -/
theorem C2_amended_canonical_casing (db : DB) (u1 u2 : String)
    (stats1 stats2 : List (String × Int)) (ss1 ss2 cats1 cats2 : List String)
    (hwf : DBWF db)
    (habs : ∀ r ∈ db.allRows, strLower r.username ≠ strLower u1)
    (hlow : strLower u2 = strLower u1)
    (hne1 : stats1 ≠ [])
    (hnd1 : (stats1.map Prod.fst).Nodup) (hnd2 : (stats2.map Prod.fst).Nodup) :
    (∀ r ∈ (update_user_stats (update_user_stats db u1 stats1 ss1 cats1)
        u2 stats2 ss2 cats2).allRows,
      strLower r.username = strLower u1 → r.username = u1) ∧
    (∀ t ∈ tableNames, ∀ s : String,
      (((update_user_stats (update_user_stats db u1 stats1 ss1 cats1)
          u2 stats2 ss2 cats2).getTable t).filter
        (fun r => strLower r.username == strLower u1 && r.stat_name == s)).length ≤ 1) ∧
    (∀ s, s ∈ stats1.map Prod.fst ∨ s ∈ stats2.map Prod.fst →
      (get_user_stats (update_user_stats (update_user_stats db u1 stats1 ss1 cats1)
        u2 stats2 ss2 cats2) u1 s).isSome) ∧
    (∀ u, strLower u = strLower u1 → u ≠ u1 → ∀ s,
      get_user_stats (update_user_stats (update_user_stats db u1 stats1 ss1 cats1)
        u2 stats2 ss2 cats2) u s = none) := by
  have hcanon1 : existing_user db u1 = none := existing_user_eq_none habs
  have heq1 : update_user_stats db u1 stats1 ss1 cats1 =
      update_canon db u1 stats1 ss1 cats1 := by
    unfold update_user_stats
    rw [hcanon1]
    rfl
  have hprov1 : ∀ r ∈ (update_canon db u1 stats1 ss1 cats1).allRows,
      r ∈ db.allRows ∨ r.username = u1 := fun r hr => mem_update_canon_allRows hr
  have hcanonAll1 : ∀ r ∈ (update_canon db u1 stats1 ss1 cats1).allRows,
      strLower r.username = strLower u1 → r.username = u1 := by
    intro r hr hl
    rcases hprov1 r hr with h | h
    · exact absurd hl (habs r h)
    · exact h
  have hex1 : ∃ r ∈ (update_canon db u1 stats1 ss1 cats1).allRows, r.username = u1 :=
    exists_row_update_canon db u1 ss1 cats1 hne1 hnd1
  have hcanon2 : existing_user (update_canon db u1 stats1 ss1 cats1) u2 = some u1 :=
    existing_user_eq_some hex1 hlow.symm
      (fun r hr hl => hcanonAll1 r hr (hl.trans hlow))
  have heq2 : update_user_stats (update_canon db u1 stats1 ss1 cats1) u2 stats2 ss2 cats2 =
      update_canon (update_canon db u1 stats1 ss1 cats1) u1 stats2 ss2 cats2 := by
    unfold update_user_stats
    rw [hcanon2]
    rfl
  rw [heq1, heq2]
  have hwf1 : DBWF (update_canon db u1 stats1 ss1 cats1) :=
    DBWF_update_canon hwf u1 stats1 ss1 cats1
  have hwf2 : DBWF (update_canon (update_canon db u1 stats1 ss1 cats1) u1 stats2 ss2 cats2) :=
    DBWF_update_canon hwf1 u1 stats2 ss2 cats2
  have hA : ∀ r ∈ (update_canon (update_canon db u1 stats1 ss1 cats1)
      u1 stats2 ss2 cats2).allRows,
      strLower r.username = strLower u1 → r.username = u1 := by
    intro r hr hl
    rcases mem_update_canon_allRows hr with h | h
    · exact hcanonAll1 r h hl
    · exact h
  refine ⟨hA, ?_, ?_, ?_⟩
  · intro t ht s
    apply length_filter_le_one_of_WF (TableWF_getTable hwf2 t)
    intro r hr hpr
    have hr' := mem_getTable_allRows hr
    rw [Bool.and_eq_true] at hpr
    obtain ⟨hp1, hp2⟩ := hpr
    exact ⟨hA r hr' (by simpa using hp1), by simpa using hp2⟩
  · intro s hs
    by_cases hs2 : s ∈ stats2.map Prod.fst
    · obtain ⟨⟨s', L⟩, hmem, hfst⟩ := List.mem_map.mp hs2
      rw [show s' = s from hfst] at hmem
      have hfind := findRow_update_canon_self (update_canon db u1 stats1 ss1 cats1)
        u1 ss2 cats2 hnd2 hmem
      rw [get_user_stats_eq_lastStatRow]
      rw [Option.isSome_map']
      exact lastStatRow_isSome_of_findRow (get_stat_table_mem s) hfind
    · have hs1 : s ∈ stats1.map Prod.fst := by tauto
      obtain ⟨⟨s', L⟩, hmem, hfst⟩ := List.mem_map.mp hs1
      rw [show s' = s from hfst] at hmem
      have hfind1 := findRow_update_canon_self db u1 ss1 cats1 hnd1 hmem
      have hframe : findRow ((update_canon (update_canon db u1 stats1 ss1 cats1)
            u1 stats2 ss2 cats2).getTable (get_stat_table s)) u1 s =
          findRow ((update_canon db u1 stats1 ss1 cats1).getTable (get_stat_table s)) u1 s :=
        findRow_update_canon_other _ u1 stats2 ss2 cats2 (get_stat_table_mem s)
          (Or.inr (Or.inl hs2))
      rw [hfind1] at hframe
      rw [get_user_stats_eq_lastStatRow]
      rw [Option.isSome_map']
      exact lastStatRow_isSome_of_findRow (get_stat_table_mem s) hframe
  · intro u hu hune s
    have habs2 : ∀ r ∈ (update_canon (update_canon db u1 stats1 ss1 cats1)
        u1 stats2 ss2 cats2).allRows, r.username ≠ u := by
      intro r hr hc
      by_cases hl : strLower r.username = strLower u1
      · exact hune (by rw [← hc]; exact hA r hr hl)
      · apply hl
        rw [hc, hu]
    exact (reads_none_of_absent _ u habs2 s).1

/-- C2 amended witness: in the Alice/alice scenario, the canonical casing
"Alice" sees both stats of the merged record, while "ALICE" reads empty. -/
theorem C2_amended_canonical_casing_witness :
    (get_user_stats (update_user_stats (update_user_stats emptyDB "Alice"
        [("kills", 5)] [] []) "alice" [("kills", 3), ("coins", 7)] [] [])
      "Alice" "kills").isSome ∧
    (get_user_stats (update_user_stats (update_user_stats emptyDB "Alice"
        [("kills", 5)] [] []) "alice" [("kills", 3), ("coins", 7)] [] [])
      "Alice" "coins").isSome ∧
    get_user_stats (update_user_stats (update_user_stats emptyDB "Alice"
        [("kills", 5)] [] []) "alice" [("kills", 3), ("coins", 7)] [] [])
      "ALICE" "kills" = none := by
  have h := C2_amended_canonical_casing emptyDB "Alice" "alice"
    [("kills", 5)] [("kills", 3), ("coins", 7)] [] [] [] []
    (by decide) (by decide) (by decide) (by decide) (by decide) (by decide)
  exact ⟨h.2.2.1 "kills" (Or.inl (by decide)), h.2.2.1 "coins" (Or.inr (by decide)),
    h.2.2.2 "ALICE" (by decide) (by decide) "kills"⟩

/-! ### Idempotence lemmas -/

theorem resolveRow_idem (u s : String) (L : Int) (ss cats : List String)
    (t : String) (e : Option StatRow) :
    resolveRow u s L ss cats t (some (resolveRow u s L ss cats t e)) =
      resolveRow u s L ss cats t e := by
  unfold resolveRow
  cases e <;> simp only [Option.getD_some] <;> split_ifs <;> rfl

theorem upsert_all_eq_self {rows : List StatRow} {row r : StatRow}
    (hr : r ∈ upsertRow rows row)
    (hm : keyMatch row.username row.stat_name r = true) : r = row := by
  unfold upsertRow at hr
  split_ifs at hr with hc
  · obtain ⟨a, _, hae⟩ := List.mem_map.mp hr
    by_cases hk : keyMatch row.username row.stat_name a = true
    · rw [if_pos hk] at hae
      exact hae.symm
    · rw [if_neg hk] at hae
      exact absurd (hae ▸ hm) hk
  · rcases List.mem_append.mp hr with h' | h'
    · rw [List.any_eq_true] at hc
      exact absurd ⟨r, h', hm⟩ hc
    · simpa using h'

theorem upsert_any_self (rows : List StatRow) (row : StatRow) :
    (upsertRow rows row).any (keyMatch row.username row.stat_name) = true := by
  unfold upsertRow
  split_ifs with hc
  · rw [List.any_eq_true] at hc ⊢
    obtain ⟨a, ha, hpa⟩ := hc
    refine ⟨row, ?_, keyMatch_self row⟩
    rw [List.mem_map]
    exact ⟨a, ha, if_pos hpa⟩
  · rw [List.any_eq_true]
    exact ⟨row, List.mem_append_right _ (List.mem_singleton_self row), keyMatch_self row⟩

theorem upsert_all_eq_other {rows : List StatRow} {row w : StatRow} {u s : String}
    (hk : ¬(row.username = u ∧ row.stat_name = s))
    (hall : ∀ r ∈ rows, keyMatch u s r = true → r = w) :
    ∀ r ∈ upsertRow rows row, keyMatch u s r = true → r = w := by
  intro r hr hm
  have hrow : ¬ keyMatch u s row = true := fun hc => hk (keyMatch_iff.mp hc)
  unfold upsertRow at hr
  split_ifs at hr with hc
  · obtain ⟨a, ha, hae⟩ := List.mem_map.mp hr
    by_cases hka : keyMatch row.username row.stat_name a = true
    · rw [if_pos hka] at hae
      exact absurd (hae ▸ hm) hrow
    · rw [if_neg hka] at hae
      subst hae
      exact hall a ha hm
  · rcases List.mem_append.mp hr with h' | h'
    · exact hall r h' hm
    · rw [List.mem_singleton] at h'
      exact absurd (h' ▸ hm) hrow

theorem upsert_any_other {rows : List StatRow} {row : StatRow} {u s : String}
    (hk : ¬(row.username = u ∧ row.stat_name = s))
    (hany : rows.any (keyMatch u s) = true) :
    (upsertRow rows row).any (keyMatch u s) = true := by
  rw [List.any_eq_true] at hany
  obtain ⟨a, ha, hpa⟩ := hany
  unfold upsertRow
  split_ifs with hc
  · rw [List.any_eq_true]
    have hka : ¬ keyMatch row.username row.stat_name a = true := by
      intro hka
      obtain ⟨h1, h2⟩ := keyMatch_iff.mp hka
      obtain ⟨h3, h4⟩ := keyMatch_iff.mp hpa
      exact hk ⟨by rw [← h1]; exact h3, by rw [← h2]; exact h4⟩
    refine ⟨a, ?_, hpa⟩
    rw [List.mem_map]
    exact ⟨a, ha, if_neg hka⟩
  · rw [List.any_eq_true]
    exact ⟨a, List.mem_append_left _ ha, hpa⟩

theorem find?_eq_of_all {rows : List StatRow} {u s : String} {w : StatRow}
    (hany : rows.any (keyMatch u s) = true)
    (hall : ∀ r ∈ rows, keyMatch u s r = true → r = w) :
    findRow rows u s = some w := by
  have hsome : (rows.find? (keyMatch u s)).isSome := by
    rw [List.find?_isSome]
    rw [List.any_eq_true] at hany
    exact hany
  obtain ⟨r0, hr0⟩ := Option.isSome_iff_exists.mp hsome
  have := hall r0 (List.mem_of_find?_eq_some hr0) (List.find?_some hr0)
  rw [findRow, hr0, this]

theorem update_stat_key_all_self (db : DB) (u : String) (ss cats : List String)
    (s : String) (L : Int) :
    (∀ r ∈ (update_stat db u ss cats s L).getTable (get_stat_table s),
      keyMatch u s r = true →
      r = resolveRow u s L ss cats (get_stat_table s)
        (findRow (db.getTable (get_stat_table s)) u s)) ∧
    ((update_stat db u ss cats s L).getTable (get_stat_table s)).any (keyMatch u s) =
      true := by
  unfold update_stat
  rw [getTable_setTable_self]
  constructor
  · intro r hr hm
    apply upsert_all_eq_self hr
    rwa [resolveRow_username, resolveRow_stat_name]
  · have h := upsert_any_self (db.getTable (get_stat_table s))
      (resolveRow u s L ss cats (get_stat_table s)
        (findRow (db.getTable (get_stat_table s)) u s))
    rwa [resolveRow_username, resolveRow_stat_name] at h

theorem update_stat_key_all_other (db : DB) (u : String) (ss cats : List String)
    (s1 : String) (L1 : Int) {u2 s2 t : String} {w : StatRow}
    (ht : t ∈ tableNames)
    (h : ¬(u2 = u ∧ s2 = s1) ∨ t ≠ get_stat_table s1)
    (hall : ∀ r ∈ db.getTable t, keyMatch u2 s2 r = true → r = w)
    (hany : (db.getTable t).any (keyMatch u2 s2) = true) :
    (∀ r ∈ (update_stat db u ss cats s1 L1).getTable t,
      keyMatch u2 s2 r = true → r = w) ∧
    ((update_stat db u ss cats s1 L1).getTable t).any (keyMatch u2 s2) = true := by
  unfold update_stat
  by_cases hteq : t = get_stat_table s1
  · subst hteq
    rw [getTable_setTable_self]
    have hkey : ¬(u2 = u ∧ s2 = s1) := by
      rcases h with h | h
      · exact h
      · exact absurd rfl h
    have hk' : ¬((resolveRow u s1 L1 ss cats (get_stat_table s1)
        (findRow (db.getTable (get_stat_table s1)) u s1)).username = u2 ∧
        (resolveRow u s1 L1 ss cats (get_stat_table s1)
          (findRow (db.getTable (get_stat_table s1)) u s1)).stat_name = s2) := by
      rw [resolveRow_username, resolveRow_stat_name]
      exact fun hc => hkey ⟨hc.1.symm, hc.2.symm⟩
    exact ⟨upsert_all_eq_other hk' hall, upsert_any_other hk' hany⟩
  · rw [getTable_setTable_other _ _ (get_stat_table_mem s1) ht hteq]
    exact ⟨hall, hany⟩

theorem update_canon_key_all_frame (db : DB) (u : String)
    (stats : List (String × Int)) (ss cats : List String) {u2 s2 t : String} {w : StatRow}
    (ht : t ∈ tableNames)
    (h : u2 ≠ u ∨ s2 ∉ stats.map Prod.fst ∨ t ≠ get_stat_table s2)
    (hall : ∀ r ∈ db.getTable t, keyMatch u2 s2 r = true → r = w)
    (hany : (db.getTable t).any (keyMatch u2 s2) = true) :
    (∀ r ∈ (update_canon db u stats ss cats).getTable t,
      keyMatch u2 s2 r = true → r = w) ∧
    ((update_canon db u stats ss cats).getTable t).any (keyMatch u2 s2) = true := by
  induction stats generalizing db with
  | nil => exact ⟨hall, hany⟩
  | cons p rest ih =>
    have hstep : ¬(u2 = u ∧ s2 = p.1) ∨ t ≠ get_stat_table p.1 := by
      rcases h with h | h | h
      · exact Or.inl fun hc => h hc.1
      · exact Or.inl fun hc => h (by simp [hc.2])
      · by_cases hs : s2 = p.1
        · exact Or.inr (hs ▸ h)
        · exact Or.inl fun hc => hs hc.2
    have hrest : u2 ≠ u ∨ s2 ∉ rest.map Prod.fst ∨ t ≠ get_stat_table s2 := by
      rcases h with h | h | h
      · exact Or.inl h
      · exact Or.inr (Or.inl fun hc => h (by simp [hc]))
      · exact Or.inr (Or.inr h)
    obtain ⟨hall', hany'⟩ := update_stat_key_all_other db u ss cats p.1 p.2 ht hstep hall hany
    exact ih (update_stat db u ss cats p.1 p.2) hrest hall' hany'

theorem update_canon_key_all (db : DB) (u : String)
    {stats : List (String × Int)} (ss cats : List String) {s : String} {L : Int}
    (hnd : (stats.map Prod.fst).Nodup) (hmem : (s, L) ∈ stats) :
    (∀ r ∈ (update_canon db u stats ss cats).getTable (get_stat_table s),
      keyMatch u s r = true →
      r = resolveRow u s L ss cats (get_stat_table s)
        (findRow (db.getTable (get_stat_table s)) u s)) ∧
    ((update_canon db u stats ss cats).getTable (get_stat_table s)).any (keyMatch u s) =
      true := by
  induction stats generalizing db with
  | nil => simp at hmem
  | cons p rest ih =>
    rw [List.map_cons, List.nodup_cons] at hnd
    obtain ⟨hp1, hnd'⟩ := hnd
    rcases List.mem_cons.mp hmem with heq | hmem'
    · obtain rfl : p = (s, L) := heq.symm
      obtain ⟨hall0, hany0⟩ := update_stat_key_all_self db u ss cats s L
      have hfold := update_canon_key_all_frame (update_stat db u ss cats s L) u rest ss cats
        (get_stat_table_mem s) (Or.inr (Or.inl hp1)) hall0 hany0
      rw [update_canon, List.foldl_cons]
      exact hfold
    · have hne : s ≠ p.1 := by
        intro hc
        apply hp1
        rw [← hc]
        exact List.mem_map.mpr ⟨(s, L), hmem', rfl⟩
      have hfr : findRow ((update_stat db u ss cats p.1 p.2).getTable (get_stat_table s)) u s =
          findRow (db.getTable (get_stat_table s)) u s :=
        findRow_update_stat_other db u ss cats p.1 p.2 (get_stat_table_mem s)
          (Or.inl fun hc => hne hc.2)
      rw [update_canon, List.foldl_cons]
      have hih := ih (update_stat db u ss cats p.1 p.2) hnd' hmem'
      rw [hfr] at hih
      exact hih

theorem update_stat_id {db1 : DB} {u s : String} {L : Int} {ss cats : List String}
    {w : StatRow}
    (hres : resolveRow u s L ss cats (get_stat_table s) (some w) = w)
    (hall : ∀ r ∈ db1.getTable (get_stat_table s), keyMatch u s r = true → r = w)
    (hany : (db1.getTable (get_stat_table s)).any (keyMatch u s) = true) :
    update_stat db1 u ss cats s L = db1 := by
  have hw1 : w.username = u := by rw [← hres, resolveRow_username]
  have hw2 : w.stat_name = s := by rw [← hres, resolveRow_stat_name]
  have hfind : findRow (db1.getTable (get_stat_table s)) u s = some w :=
    find?_eq_of_all hany hall
  show db1.setTable (get_stat_table s) (upsertRow (db1.getTable (get_stat_table s))
    (resolveRow u s L ss cats (get_stat_table s)
      (findRow (db1.getTable (get_stat_table s)) u s))) = db1
  rw [hfind, hres]
  have hup : upsertRow (db1.getTable (get_stat_table s)) w =
      db1.getTable (get_stat_table s) := by
    unfold upsertRow
    rw [if_pos (by rwa [hw1, hw2])]
    have hmapid : (db1.getTable (get_stat_table s)).map
        (fun r => if keyMatch w.username w.stat_name r then w else r) =
        (db1.getTable (get_stat_table s)).map id := by
      apply List.map_congr_left
      intro r hr
      by_cases hm : keyMatch w.username w.stat_name r = true
      · rw [if_pos hm, id]
        exact (hall r hr (by rwa [hw1, hw2] at hm)).symm
      · rw [if_neg hm, id]
    rw [hmapid, List.map_id]
  rw [hup, setTable_getTable_self]

theorem update_canon_id {db1 : DB} {u : String} {stats : List (String × Int)}
    {ss cats : List String}
    (hid : ∀ p ∈ stats, update_stat db1 u ss cats p.1 p.2 = db1) :
    update_canon db1 u stats ss cats = db1 := by
  induction stats with
  | nil => rfl
  | cons p rest ih =>
    rw [update_canon, List.foldl_cons, hid p (List.mem_cons_self p rest)]
    exact ih fun q hq => hid q (List.mem_cons_of_mem p hq)

theorem update_canon_update_canon (db : DB) (u : String)
    (stats : List (String × Int)) (ss cats : List String)
    (hnd : (stats.map Prod.fst).Nodup) :
    update_canon (update_canon db u stats ss cats) u stats ss cats =
      update_canon db u stats ss cats := by
  apply update_canon_id
  intro p hp
  obtain ⟨hall, hany⟩ := update_canon_key_all db u ss cats hnd
    (show (p.1, p.2) ∈ stats by simpa using hp)
  exact update_stat_id (resolveRow_idem u p.1 p.2 ss cats (get_stat_table p.1) _) hall hany

theorem existing_user_update_canon {db : DB} {u : String}
    {stats : List (String × Int)} {ss cats : List String}
    (hCC : CanonicalCased db) (hne : stats ≠ []) (hnd : (stats.map Prod.fst).Nodup) :
    existing_user (update_canon db ((existing_user db u).getD u) stats ss cats) u =
      some ((existing_user db u).getD u) := by
  cases hfu : existing_user db u with
  | none =>
    have habs : ∀ r ∈ db.allRows, strLower r.username ≠ strLower u := by
      intro r hr hc
      unfold existing_user at hfu
      rw [Option.map_eq_none'] at hfu
      rw [List.find?_eq_none] at hfu
      exact hfu r hr (by simpa using hc)
    apply existing_user_eq_some
    · exact exists_row_update_canon db _ ss cats hne hnd
    · rfl
    · intro r hr hl
      rcases mem_update_canon_allRows hr with h | h
      · exact absurd hl (habs r h)
      · exact h
  | some c0 =>
    have hfu' := hfu
    unfold existing_user at hfu'
    obtain ⟨r0, hr0, hr0u⟩ := Option.map_eq_some'.mp hfu'
    have hmem0 := List.mem_of_find?_eq_some hr0
    have hp0 : strLower r0.username = strLower u := by simpa using List.find?_some hr0
    apply existing_user_eq_some
    · exact exists_row_update_canon db _ ss cats hne hnd
    · show strLower c0 = strLower u
      rw [← hr0u]
      exact hp0
    · intro r hr hl
      rcases mem_update_canon_allRows hr with h | h
      · have heq := hCC r h r0 hmem0 (by rw [hp0]; exact hl)
        show r.username = c0
        rw [heq, hr0u]
      · exact h

theorem rot_map_idem (usernames : List String) (rows : List StatRow) :
    ((rows.map (fun r => if usernames.contains r.username then
        { r with yesterday := r.daily } else r)).map
      (fun r => if usernames.contains r.username then
        { r with yesterday := r.daily } else r)) =
      rows.map (fun r => if usernames.contains r.username then
        { r with yesterday := r.daily } else r) := by
  rw [List.map_map]
  apply List.map_congr_left
  intro r _
  by_cases hm : r.username ∈ usernames
  · simp [Function.comp, hm]
  · simp [Function.comp, hm]

theorem reset_map_idem (usernames : List String) (rows : List StatRow) :
    ((rows.map (fun r => if usernames.contains r.username then
        { r with weekly := r.lifetime } else r)).map
      (fun r => if usernames.contains r.username then
        { r with weekly := r.lifetime } else r)) =
      rows.map (fun r => if usernames.contains r.username then
        { r with weekly := r.lifetime } else r) := by
  rw [List.map_map]
  apply List.map_congr_left
  intro r _
  by_cases hm : r.username ∈ usernames
  · simp [Function.comp, hm]
  · simp [Function.comp, hm]

theorem rotate_daily_idem (db : DB) (usernames : List String) :
    (rotate_daily_to_yesterday (rotate_daily_to_yesterday db usernames).1 usernames).1 =
      (rotate_daily_to_yesterday db usernames).1 := by
  show usernames.foldl rotateUserDaily (usernames.foldl rotateUserDaily db) =
    usernames.foldl rotateUserDaily db
  rw [foldl_rotateUserDaily, foldl_rotateUserDaily]
  simp only [foldl_rotateRowsDaily]
  rw [rot_map_idem, rot_map_idem, rot_map_idem, rot_map_idem]

theorem reset_weekly_idem (db : DB) (usernames : List String) :
    (reset_weekly_snapshots (reset_weekly_snapshots db usernames).1 usernames).1 =
      (reset_weekly_snapshots db usernames).1 := by
  show usernames.foldl resetUserWeekly (usernames.foldl resetUserWeekly db) =
    usernames.foldl resetUserWeekly db
  rw [foldl_resetUserWeekly, foldl_resetUserWeekly]
  simp only [foldl_resetRowsWeekly]
  rw [reset_map_idem, reset_map_idem, reset_map_idem, reset_map_idem]

/-- C6: on a store satisfying the documented casing invariant, running
`update_user_stats` twice with identical stat values, rebaseline windows and
bootstrap categories equals running it once, and running either rotation
twice in a row equals running it once. -/
theorem C6_idempotence (db : DB) (u : String) (stats : List (String × Int))
    (ss cats : List String) (usernames : List String)
    (hCC : CanonicalCased db) (hnd : (stats.map Prod.fst).Nodup) :
    update_user_stats (update_user_stats db u stats ss cats) u stats ss cats =
      update_user_stats db u stats ss cats ∧
    (rotate_daily_to_yesterday (rotate_daily_to_yesterday db usernames).1 usernames).1 =
      (rotate_daily_to_yesterday db usernames).1 ∧
    (reset_weekly_snapshots (reset_weekly_snapshots db usernames).1 usernames).1 =
      (reset_weekly_snapshots db usernames).1 := by
  refine ⟨?_, rotate_daily_idem db usernames, reset_weekly_idem db usernames⟩
  by_cases hne : stats = []
  · subst hne
    rfl
  · show update_user_stats (update_canon db ((existing_user db u).getD u) stats ss cats)
      u stats ss cats = update_canon db ((existing_user db u).getD u) stats ss cats
    unfold update_user_stats
    rw [existing_user_update_canon hCC hne hnd]
    exact update_canon_update_canon db _ stats ss cats hnd

/-- C6 witness: a second identical update of Bob's kills (re-baselining
`daily`) and second rotations change nothing. -/
theorem C6_idempotence_witness :
    update_user_stats (update_user_stats dbBob "Bob" [("kills", 20)] ["daily"] [])
        "Bob" [("kills", 20)] ["daily"] [] =
      update_user_stats dbBob "Bob" [("kills", 20)] ["daily"] [] ∧
    (rotate_daily_to_yesterday (rotate_daily_to_yesterday dbBob ["Bob"]).1 ["Bob"]).1 =
      (rotate_daily_to_yesterday dbBob ["Bob"]).1 ∧
    (reset_weekly_snapshots (reset_weekly_snapshots dbBob ["Bob"]).1 ["Bob"]).1 =
      (reset_weekly_snapshots dbBob ["Bob"]).1 :=
  C6_idempotence dbBob "Bob" [("kills", 20)] ["daily"] [] ["Bob"]
    (by decide) (by decide)
